import Mathlib

/-!
Shallow embedding of the real-time WebSocket connection manager of the
Donationdelight API (`WebSocketManager` in the repository's websocket
utility module).

Modelling conventions:
* The mutable `clients : Map<string, ClientConnection>` is modelled as an
  association list `Registry := List ClientConnection` keyed by the
  `sessionId` field, iterated in insertion order like a JS `Map`.
* A Bun WebSocket object is modelled as a `WS` value carrying an identity
  (`id`, standing for JS reference identity: distinct live handles are
  distinct objects) and its `readyState` number (1 = OPEN, compared by
  `readyState === 1` in the source).
* Side effects (calls to `ws.send`, `ws.close`, and the fire-and-forget
  `updateUserLastActive` database hook) are made explicit as an `Effect`
  list returned next to the new registry state.  `Effect.send` records a
  successfully delivered `ws.send`; runs in which an underlying
  `ws.send` throws are modelled by the `sendFails` flag of `sendToClient`
  (the only place the source reacts to a send exception differently than
  by doing nothing).  Broadcast paths are modelled for non-throwing sends,
  under which the source's `sendToClient` leaves the registry untouched.
* Optional JS fields (`userId?`, `storeId?`) become `Option String`;
  the source's truthiness tests `if (client.userId)` / `if (authData.storeId)`
  are modelled as `Option.isSome` pattern matches.
* Timestamps (`Date.now()`) are `Nat` parameters threaded in by callers.
-/

/-- Model of a Bun WebSocket handle: JS object identity plus the
`readyState` field read by the source (1 = OPEN). -/
structure WS where
  id : Nat
  readyState : Nat
deriving DecidableEq, Repr

/-- The `ClientConnection` record stored in the manager's `clients` map. -/
structure ClientConnection where
  ws : WS
  userId : Option String := none
  storeId : Option String := none
  sessionId : String
  isAlive : Bool
  lastPingTime : Nat
  lastActiveTime : Nat
  connectedAt : Nat
deriving DecidableEq, Repr

/-- The `clients` map of the manager, in JS `Map` insertion order. -/
abbrev Registry := List ClientConnection

/-- `this.clients.get(sessionId)` on the association-list model. -/
def getClient (r : Registry) (sid : String) : Option ClientConnection :=
  r.find? (fun c => c.sessionId == sid)

/-- In-place mutation of the client object stored under `sid`
(e.g. `client.isAlive = false`); all `f` used in the model preserve
`sessionId` and `ws`. -/
def updateClient (r : Registry) (sid : String) (f : ClientConnection → ClientConnection) :
    Registry :=
  r.map (fun c => if c.sessionId == sid then f c else c)

/-- `this.clients.delete(sessionId)`; keeps the order of the other entries. -/
def deleteClient (r : Registry) (sid : String) : Registry :=
  r.filter (fun c => c.sessionId != sid)

/-- The `sessionId` column of the registry (the `Map` keys). -/
def sessionIds (r : Registry) : List String :=
  r.map (fun c => c.sessionId)

/-- The transport identity column of the registry. -/
def wsIds (r : Registry) : List Nat :=
  r.map (fun c => c.ws.id)

/-- Outbound message kinds used by the manager (the `type` field of a
`WebSocketMessage`; payload `data` and `timestamp` carry no information
relevant to the verified properties and are elided). -/
inductive MsgType
  | ping
  | pong
  | user_joined
  | user_left
  | general_notification
  | other (s : String)
deriving DecidableEq, Repr

/-- Observable side effects of the manager. -/
inductive Effect
  | send (sessionId : String) (msg : MsgType)
  | closeWS (wsId : Nat)
  | updateLastActive (userId : String)
deriving DecidableEq, Repr

/-- Whether an effect closes a transport handle. -/
def Effect.isClose : Effect → Bool
  | Effect.closeWS _ => true
  | _ => false

/-- `sendToClient(sessionId, message)` specialised to a non-throwing
underlying `ws.send`: the registry is unchanged (so only the effect list
is returned) and the message goes out iff the client is registered and
its transport has `readyState === 1`.  `sendToClient` below covers the
throwing case and agrees with this one when the send does not throw. -/
def sendToClientOk (r : Registry) (sid : String) (msg : MsgType) : List Effect :=
  match getClient r sid with
  | some c => if c.ws.readyState == 1 then [Effect.send sid msg] else []
  | none => []

/-- `broadcastToStore(storeId, message, excludeSessionId?)`: iterate the
registry and `sendToClient` to every client whose `storeId` matches, whose
`sessionId` is not the excluded one and whose transport is open (the
source checks `readyState === 1` both here and again inside
`sendToClient`; in the single-threaded non-throwing model the re-check is
redundant and the iteration never mutates the registry). -/
def broadcastToStore (r : Registry) (storeId : String) (msg : MsgType)
    (excludeSessionId : Option String) : List Effect :=
  (r.filter (fun c =>
      c.storeId == some storeId && some c.sessionId != excludeSessionId &&
        c.ws.readyState == 1)).flatMap
    (fun c => sendToClientOk r c.sessionId msg)

/-- `handleDisconnection(sessionId)`: if the client is present and has a
`storeId`, broadcast `USER_LEFT` to its store excluding it; then delete
the entry.  Note that the source never calls `ws.close()` here. -/
def handleDisconnection (r : Registry) (sid : String) : Registry × List Effect :=
  (deleteClient r sid,
   match getClient r sid with
   | some c =>
     match c.storeId with
     | some storeId => broadcastToStore r storeId MsgType.user_left (some sid)
     | none => []
   | none => [])

/-- `sendToClient(sessionId, message)` in full: the send is attempted only
when the client is registered with `readyState === 1`; `sendFails` tells
whether the underlying `ws.send` throws, in which case the `catch` block
runs `handleDisconnection` (and no message is delivered). -/
def sendToClient (r : Registry) (sid : String) (msg : MsgType) (sendFails : Bool) :
    Registry × List Effect :=
  match getClient r sid with
  | some c =>
    if c.ws.readyState == 1 then
      if sendFails then handleDisconnection r sid
      else (r, [Effect.send sid msg])
    else (r, [])
  | none => (r, [])

/-- `findSessionIdByWebSocket(ws)`: linear scan for the entry whose `ws`
is (reference-)equal to the argument. -/
def findSessionIdByWebSocket (r : Registry) (w : WS) : Option String :=
  (r.find? (fun c => c.ws == w)).map (fun c => c.sessionId)

/-- The connection object built by `handleWebSocketUpgrade`. -/
def mkConnection (w : WS) (sid : String) (now : Nat) : ClientConnection :=
  { ws := w, sessionId := sid, isAlive := true,
    lastPingTime := now, lastActiveTime := now, connectedAt := now }

/-- `handleWebSocketUpgrade(ws)`: store a fresh connection (the generated
session id and the current time are parameters here) and send the welcome
`GENERAL_NOTIFICATION` through `sendToClient`. -/
def handleWebSocketUpgrade (r : Registry) (w : WS) (sid : String) (now : Nat) :
    Registry × List Effect :=
  let r1 := r ++ [mkConnection w sid now]
  (r1, sendToClientOk r1 sid MsgType.general_notification)

/-- `authenticateClient(sessionId, authData)`: copy `authData.userId` and
`authData.storeId` onto the client, then, if a `storeId` was supplied,
broadcast `USER_JOINED` to that store excluding the sender. -/
def authenticateClient (r : Registry) (sid : String)
    (dataUserId dataStoreId : Option String) : Registry × List Effect :=
  match getClient r sid with
  | some _ =>
    let r1 := updateClient r sid
      (fun c => { c with userId := dataUserId, storeId := dataStoreId })
    (r1,
     match dataStoreId with
     | some storeId => broadcastToStore r1 storeId MsgType.user_joined (some sid)
     | none => [])
  | none => (r, [])

/-- The `if (client.userId) this.updateUserLastActive(client.userId)` hook
call (the ping/pong handlers do not change `userId`, so reading it from
the pre-update client is equivalent to the source's post-update read). -/
def hookEffects (userId : Option String) : List Effect :=
  match userId with
  | some u => [Effect.updateLastActive u]
  | none => []

/-- An inbound transport frame: either one that `JSON.parse` rejects, or a
parsed object with a `type` string and the two `data` fields the manager
ever reads (`data.userId` / `data.storeId`, used by `authenticate`). -/
inductive Frame
  | malformed
  | parsed (kind : String) (dataUserId : Option String) (dataStoreId : Option String)
deriving DecidableEq, Repr

/-- `handleWebSocketMessage(ws, message)`: resolve the session by reverse
lookup (unknown transport: drop), parse (malformed: drop via the `catch`),
refresh `lastActiveTime`, then dispatch on the message `type`
(`authenticate`, `pong`, `ping`, default: ignore). -/
def handleWebSocketMessage (r : Registry) (w : WS) (frame : Frame) (now : Nat) :
    Registry × List Effect :=
  match findSessionIdByWebSocket r w with
  | none => (r, [])
  | some sid =>
    match frame with
    | Frame.malformed => (r, [])
    | Frame.parsed kind dataUserId dataStoreId =>
      match getClient r sid with
      | none => (r, [])
      | some c =>
        let r1 := updateClient r sid (fun d => { d with lastActiveTime := now })
        if kind == "authenticate" then
          authenticateClient r1 sid dataUserId dataStoreId
        else if kind == "pong" then
          let r2 := updateClient r1 sid (fun d => { d with isAlive := true, lastPingTime := now })
          (r2, hookEffects c.userId)
        else if kind == "ping" then
          let r2 := updateClient r1 sid (fun d => { d with isAlive := true, lastPingTime := now })
          (r2, sendToClientOk r2 sid MsgType.pong ++ hookEffects c.userId)
        else (r1, [])

/-- One client's share of a liveness tick: evict if `isAlive` is already
false, otherwise flip `isAlive` to false and send a `PING` (the tick pings
through `ws.send` directly, without a `readyState` guard; the non-throwing
send is modelled, a throwing one would evict like the `isAlive` branch). -/
def tickStep (r : Registry) (sid : String) : Registry × List Effect :=
  match getClient r sid with
  | none => (r, [])
  | some c =>
    if c.isAlive then
      (updateClient r sid (fun d => { d with isAlive := false }), [Effect.send sid MsgType.ping])
    else
      handleDisconnection r sid

/-- Iterate `tickStep` over a list of session ids, threading the registry
(the JS `Map.forEach` visits each key once; the body only ever deletes or
mutates the key it is visiting). -/
def tickLoop : Registry → List String → Registry × List Effect
  | r, [] => (r, [])
  | r, sid :: rest =>
    let p := tickStep r sid
    let q := tickLoop p.1 rest
    (q.1, p.2 ++ q.2)

/-- One firing of the 30-second interval installed by the manager's
start-up routine: `clients.forEach` of `tickStep`. -/
def livenessTick (r : Registry) : Registry × List Effect :=
  tickLoop r (sessionIds r)

/-- `storeConnections.set(storeId, (storeConnections.get(storeId) || 0) + 1)`
on an insertion-ordered association list. -/
def bumpStore (m : List (String × Nat)) (s : String) : List (String × Nat) :=
  if m.any (fun p => p.1 == s) then
    m.map (fun p => if p.1 == s then (p.1, p.2 + 1) else p)
  else m ++ [(s, 1)]

/-- The per-store connection counts computed by `getStats`. -/
def storeCounts (r : Registry) : List (String × Nat) :=
  r.foldl
    (fun m c =>
      match c.storeId with
      | some s => bumpStore m s
      | none => m)
    []

/-- The record returned by `getStats()`. -/
structure Stats where
  totalConnections : Nat
  activeConnections : Nat
  storeConnections : List (String × Nat)
  averageConnectionTime : ℚ
deriving DecidableEq, Repr

/-- `getStats()`: a read-only snapshot; the registry is returned unchanged
to make explicit that the method performs no mutation.  The `now`
parameter stands for the single `Date.now()` call. -/
def getStats (r : Registry) (now : Nat) : Stats × Registry :=
  ({ totalConnections := r.length,
     activeConnections := (r.filter (fun c => c.ws.readyState == 1)).length,
     storeConnections := storeCounts r,
     averageConnectionTime :=
       if r.length > 0 then
         ((r.map (fun c => ((now - c.connectedAt : Nat) : ℚ))).sum) / (r.length : ℚ)
       else 0 },
   r)

/-- `cleanup()`: close every registered transport, then clear the map. -/
def cleanup (r : Registry) : Registry × List Effect :=
  (([] : Registry), r.map (fun c => Effect.closeWS c.ws.id))

/-! ### Basic registry lemmas -/

theorem getClient_eq_some (r : Registry) (sid : String) (c : ClientConnection)
    (h : getClient r sid = some c) : c ∈ r ∧ c.sessionId = sid := by
  simp only [getClient] at h
  refine ⟨List.mem_of_find?_eq_some h, ?_⟩
  have hp := List.find?_some h
  simpa using hp

theorem sessionId_mem_of_getClient (r : Registry) (sid : String) (c : ClientConnection)
    (h : getClient r sid = some c) : sid ∈ sessionIds r := by
  obtain ⟨hm, hk⟩ := getClient_eq_some r sid c h
  exact hk ▸ List.mem_map.mpr ⟨c, hm, rfl⟩

theorem getClient_cons (d : ClientConnection) (rest : Registry) (sid : String) :
    getClient (d :: rest) sid =
      if (d.sessionId == sid) = true then some d else getClient rest sid := by
  simp only [getClient, List.find?_cons]
  cases d.sessionId == sid <;> simp

theorem getClient_of_mem (r : Registry) (c : ClientConnection)
    (hnd : (sessionIds r).Nodup) (hc : c ∈ r) : getClient r c.sessionId = some c := by
  induction r with
  | nil => cases hc
  | cons d rest ih =>
    simp only [sessionIds, List.map_cons, List.nodup_cons] at hnd
    rw [getClient_cons]
    rcases List.mem_cons.mp hc with h | h
    · subst h
      simp
    · have hne : (d.sessionId == c.sessionId) = false := by
        simp only [beq_eq_false_iff_ne, ne_eq]
        intro he
        exact hnd.1 (he ▸ List.mem_map.mpr ⟨c, h, rfl⟩)
      rw [hne, if_neg (by simp)]
      exact ih hnd.2 h

theorem find?_map_of_pred_inv {α : Type} (l : List α) (g : α → α) (p : α → Bool)
    (hg : ∀ a, p (g a) = p a) :
    (l.map g).find? p = (l.find? p).map g := by
  induction l with
  | nil => rfl
  | cons a rest ih =>
    by_cases h : p a = true
    · rw [List.map_cons, List.find?_cons_of_pos _ (by rw [hg]; exact h),
        List.find?_cons_of_pos _ h, Option.map_some']
    · rw [List.map_cons, List.find?_cons_of_neg _ (by rw [hg]; exact h),
        List.find?_cons_of_neg _ h, ih]

theorem getClient_updateClient (r : Registry) (sid sid' : String)
    (f : ClientConnection → ClientConnection) (hf : ∀ c, (f c).sessionId = c.sessionId) :
    getClient (updateClient r sid f) sid' =
      (getClient r sid').map (fun c => if c.sessionId == sid then f c else c) := by
  simp only [getClient, updateClient]
  apply find?_map_of_pred_inv
  intro c
  by_cases h : c.sessionId == sid
  · simp [h, hf]
  · simp [h]

theorem getClient_updateClient_self (r : Registry) (sid : String) (c : ClientConnection)
    (f : ClientConnection → ClientConnection) (hf : ∀ d, (f d).sessionId = d.sessionId)
    (hc : getClient r sid = some c) :
    getClient (updateClient r sid f) sid = some (f c) := by
  have hk : c.sessionId = sid := (getClient_eq_some r sid c hc).2
  rw [getClient_updateClient r sid sid f hf, hc]
  simp [hk]

theorem getClient_updateClient_ne (r : Registry) (sid sid' : String)
    (f : ClientConnection → ClientConnection) (hf : ∀ d, (f d).sessionId = d.sessionId)
    (h : sid' ≠ sid) :
    getClient (updateClient r sid f) sid' = getClient r sid' := by
  rw [getClient_updateClient r sid sid' f hf]
  cases hc : getClient r sid' with
  | none => rfl
  | some c =>
    have hk : c.sessionId = sid' := (getClient_eq_some r sid' c hc).2
    simp [hk, h]

theorem getClient_deleteClient_self (r : Registry) (sid : String) :
    getClient (deleteClient r sid) sid = none := by
  simp only [getClient, deleteClient]
  rw [List.find?_eq_none]
  intro c hc
  have := (List.mem_filter.mp hc).2
  simpa using this

theorem find?_filter_of_imp {α : Type} (l : List α) (p q : α → Bool)
    (h : ∀ a, q a = true → p a = true) :
    (l.filter p).find? q = l.find? q := by
  induction l with
  | nil => rfl
  | cons a rest ih =>
    rw [List.filter_cons]
    by_cases hq : q a = true
    · rw [if_pos (h a hq), List.find?_cons_of_pos _ hq, List.find?_cons_of_pos _ hq]
    · by_cases hp : p a = true
      · rw [if_pos hp, List.find?_cons_of_neg _ hq, List.find?_cons_of_neg _ hq]
        exact ih
      · rw [if_neg hp, List.find?_cons_of_neg _ hq]
        exact ih

theorem getClient_deleteClient_ne (r : Registry) (sid sid' : String) (h : sid' ≠ sid) :
    getClient (deleteClient r sid) sid' = getClient r sid' := by
  simp only [getClient, deleteClient]
  apply find?_filter_of_imp
  intro c hc
  have hck : c.sessionId = sid' := by simpa using hc
  simp [hck, h]

theorem deleteClient_absent (r : Registry) (sid : String)
    (h : getClient r sid = none) : deleteClient r sid = r := by
  simp only [getClient, List.find?_eq_none] at h
  simp only [deleteClient]
  rw [List.filter_eq_self]
  intro c hc
  have := h c hc
  simpa using this

theorem sessionIds_updateClient (r : Registry) (sid : String)
    (f : ClientConnection → ClientConnection) (hf : ∀ d, (f d).sessionId = d.sessionId) :
    sessionIds (updateClient r sid f) = sessionIds r := by
  simp only [sessionIds, updateClient, List.map_map]
  apply List.map_congr_left
  intro c _
  by_cases h : c.sessionId == sid
  · simp [Function.comp, h, hf]
  · simp [Function.comp, h]

theorem sessionIds_deleteClient_sublist (r : Registry) (sid : String) :
    (sessionIds (deleteClient r sid)).Sublist (sessionIds r) :=
  List.Sublist.map _ (List.filter_sublist r)

theorem updateClient_updateClient (r : Registry) (sid : String)
    (f g : ClientConnection → ClientConnection) (hf : ∀ d, (f d).sessionId = d.sessionId) :
    updateClient (updateClient r sid f) sid g = updateClient r sid (fun c => g (f c)) := by
  simp only [updateClient, List.map_map]
  apply List.map_congr_left
  intro c _
  by_cases h : (c.sessionId == sid) = true
  · simp only [Function.comp_apply, h, if_true]
    rw [if_pos (by rw [hf]; exact h)]
  · simp [Function.comp, h]

/-! ### Reverse lookup and key-column lemmas -/

theorem findSessionIdByWebSocket_of_mem (r : Registry) (c : ClientConnection)
    (hnd : (wsIds r).Nodup) (hc : c ∈ r) :
    findSessionIdByWebSocket r c.ws = some c.sessionId := by
  induction r with
  | nil => cases hc
  | cons d rest ih =>
    simp only [wsIds, List.map_cons, List.nodup_cons] at hnd
    rcases List.mem_cons.mp hc with h | h
    · subst h
      simp [findSessionIdByWebSocket]
    · have hne : (d.ws == c.ws) = false := by
        simp only [beq_eq_false_iff_ne, ne_eq]
        intro he
        refine hnd.1 ?_
        rw [show d.ws.id = c.ws.id by rw [he]]
        exact List.mem_map.mpr ⟨c, h, rfl⟩
      simp only [findSessionIdByWebSocket, List.find?_cons, hne] at ih ⊢
      exact ih hnd.2 h

theorem sessionIds_append (r1 r2 : Registry) :
    sessionIds (r1 ++ r2) = sessionIds r1 ++ sessionIds r2 := by
  simp [sessionIds]

theorem wsIds_append (r1 r2 : Registry) :
    wsIds (r1 ++ r2) = wsIds r1 ++ wsIds r2 := by
  simp [wsIds]

theorem wsIds_deleteClient_sublist (r : Registry) (sid : String) :
    (wsIds (deleteClient r sid)).Sublist (wsIds r) :=
  List.Sublist.map _ (List.filter_sublist r)

/-! ### Send and broadcast lemmas -/

theorem sendToClient_not_throwing (r : Registry) (sid : String) (msg : MsgType) :
    sendToClient r sid msg false = (r, sendToClientOk r sid msg) := by
  simp only [sendToClient, sendToClientOk]
  cases getClient r sid with
  | none => rfl
  | some c => by_cases h : (c.ws.readyState == 1) = true <;> simp [h]

theorem sendToClientOk_of_open (r : Registry) (c : ClientConnection) (msg : MsgType)
    (hnd : (sessionIds r).Nodup) (hc : c ∈ r) (hopen : c.ws.readyState = 1) :
    sendToClientOk r c.sessionId msg = [Effect.send c.sessionId msg] := by
  simp [sendToClientOk, getClient_of_mem r c hnd hc, hopen]

theorem mem_broadcastToStore (r : Registry) (storeId : String) (msg : MsgType)
    (ex : Option String) (e : Effect) (hnd : (sessionIds r).Nodup) :
    e ∈ broadcastToStore r storeId msg ex ↔
      ∃ c ∈ r, e = Effect.send c.sessionId msg ∧ c.storeId = some storeId ∧
        some c.sessionId ≠ ex ∧ c.ws.readyState = 1 := by
  simp only [broadcastToStore, List.mem_flatMap, List.mem_filter]
  constructor
  · rintro ⟨c, ⟨hcr, hcond⟩, he⟩
    have h1 : (c.storeId = some storeId ∧ ¬ some c.sessionId = ex) ∧ c.ws.readyState = 1 := by
      simpa [Bool.and_eq_true] using hcond
    rw [sendToClientOk_of_open r c msg hnd hcr h1.2] at he
    simp only [List.mem_singleton] at he
    exact ⟨c, hcr, he, h1.1.1, h1.1.2, h1.2⟩
  · rintro ⟨c, hcr, he, h1, h2, h3⟩
    refine ⟨c, ⟨hcr, ?_⟩, ?_⟩
    · simp [h1, h2, h3]
    · rw [sendToClientOk_of_open r c msg hnd hcr h3]
      simp [he]

theorem broadcastToStore_effects_are_sends (r : Registry) (storeId : String) (msg : MsgType)
    (ex : Option String) (e : Effect) (he : e ∈ broadcastToStore r storeId msg ex) :
    ∃ sid, e = Effect.send sid msg := by
  simp only [broadcastToStore, List.mem_flatMap] at he
  obtain ⟨c, _, he⟩ := he
  revert he
  simp only [sendToClientOk]
  cases getClient r c.sessionId with
  | none => intro he; cases he
  | some d =>
    by_cases hrs : (d.ws.readyState == 1) = true
    · simp only [hrs, if_true, List.mem_singleton]
      intro he
      exact ⟨c.sessionId, he⟩
    · simp only [hrs, if_false]
      intro he
      cases he

theorem handleDisconnection_no_close (r : Registry) (sid : String) (e : Effect)
    (he : e ∈ (handleDisconnection r sid).2) : e.isClose = false := by
  simp only [handleDisconnection] at he
  cases hg : getClient r sid with
  | none => simp only [hg] at he; cases he
  | some c =>
    simp only [hg] at he
    cases hs : c.storeId with
    | none => simp only [hs] at he; cases he
    | some storeId =>
      simp only [hs] at he
      obtain ⟨s, hse⟩ :=
        broadcastToStore_effects_are_sends r storeId MsgType.user_left (some sid) e he
      rw [hse]
      rfl

/-! ### Liveness tick lemmas -/

theorem tickStep_fst_getClient_ne (r : Registry) (sid sid' : String) (h : sid' ≠ sid) :
    getClient (tickStep r sid).1 sid' = getClient r sid' := by
  simp only [tickStep]
  cases hc : getClient r sid with
  | none => rfl
  | some c =>
    cases ha : c.isAlive
    · simp only [ha, Bool.false_eq_true, if_false, handleDisconnection]
      exact getClient_deleteClient_ne r sid sid' h
    · simp only [ha, if_true]
      exact getClient_updateClient_ne r sid sid' _ (fun d => rfl) h

theorem tickLoop_fst_getClient_not_mem (ks : List String) (r : Registry) (sid : String)
    (h : sid ∉ ks) : getClient (tickLoop r ks).1 sid = getClient r sid := by
  induction ks generalizing r with
  | nil => rfl
  | cons k rest ih =>
    simp only [tickLoop]
    have hk : sid ≠ k := fun he => h (he ▸ List.mem_cons_self k rest)
    rw [ih _ (fun hm => h (List.mem_cons_of_mem _ hm)), tickStep_fst_getClient_ne r k sid hk]

theorem tickLoop_fst_getClient (ks : List String) (r : Registry) (sid : String)
    (c : ClientConnection) (hnd : ks.Nodup) (hmem : sid ∈ ks)
    (hc : getClient r sid = some c) :
    getClient (tickLoop r ks).1 sid =
      if c.isAlive then some { c with isAlive := false } else none := by
  induction ks generalizing r c with
  | nil => cases hmem
  | cons k rest ih =>
    simp only [List.nodup_cons] at hnd
    simp only [tickLoop]
    by_cases hk : sid = k
    · subst hk
      have hstep : getClient (tickStep r sid).1 sid =
          if c.isAlive then some { c with isAlive := false } else none := by
        simp only [tickStep, hc]
        cases ha : c.isAlive
        · simp only [ha, Bool.false_eq_true, if_false, handleDisconnection]
          exact getClient_deleteClient_self r sid
        · simp only [ha, if_true]
          exact getClient_updateClient_self r sid c _ (fun d => rfl) hc
      rw [tickLoop_fst_getClient_not_mem rest _ sid hnd.1, hstep]
    · have hmem' : sid ∈ rest := by
        rcases List.mem_cons.mp hmem with h | h
        · exact absurd h hk
        · exact h
      have hc' : getClient (tickStep r k).1 sid = some c := by
        rw [tickStep_fst_getClient_ne r k sid hk]
        exact hc
      exact ih _ c hnd.2 hmem' hc'

theorem sessionIds_tickStep_sublist (r : Registry) (sid : String) :
    (sessionIds (tickStep r sid).1).Sublist (sessionIds r) := by
  simp only [tickStep]
  cases hc : getClient r sid with
  | none => exact List.Sublist.refl _
  | some c =>
    cases ha : c.isAlive
    · simp only [ha, Bool.false_eq_true, if_false, handleDisconnection]
      exact sessionIds_deleteClient_sublist r sid
    · simp only [ha, if_true]
      rw [sessionIds_updateClient r sid (fun d => { d with isAlive := false }) (fun d => rfl)]

theorem sessionIds_tickLoop_sublist (ks : List String) (r : Registry) :
    (sessionIds (tickLoop r ks).1).Sublist (sessionIds r) := by
  induction ks generalizing r with
  | nil => exact List.Sublist.refl _
  | cons k rest ih =>
    simp only [tickLoop]
    exact (ih _).trans (sessionIds_tickStep_sublist r k)

/-! ### Concrete registries used by witnesses and counterexamples -/

/-- Four clients: two open connections in store s1 (one of them the
excluded sender), one open connection in store s2, one non-open connection
in store s1. -/
def rFour : Registry :=
  [ { ws := ⟨0, 1⟩, userId := some "u1", storeId := some "s1", sessionId := "a",
      isAlive := true, lastPingTime := 0, lastActiveTime := 0, connectedAt := 0 },
    { ws := ⟨1, 1⟩, userId := some "u2", storeId := some "s1", sessionId := "b",
      isAlive := true, lastPingTime := 0, lastActiveTime := 0, connectedAt := 0 },
    { ws := ⟨2, 1⟩, userId := some "u3", storeId := some "s2", sessionId := "c",
      isAlive := true, lastPingTime := 0, lastActiveTime := 0, connectedAt := 0 },
    { ws := ⟨3, 0⟩, userId := some "u4", storeId := some "s1", sessionId := "d",
      isAlive := true, lastPingTime := 0, lastActiveTime := 0, connectedAt := 0 } ]

/-- One client with an open transport, in store s1. -/
def cOpen : ClientConnection :=
  { ws := ⟨5, 1⟩, userId := some "u1", storeId := some "s1", sessionId := "a",
    isAlive := true, lastPingTime := 0, lastActiveTime := 0, connectedAt := 0 }

/-- Registry holding just `cOpen`. -/
def rOne : Registry := [cOpen]

/-- One client whose transport is not open (readyState 0). -/
def cClosed : ClientConnection :=
  { ws := ⟨6, 0⟩, userId := some "u1", storeId := some "s1", sessionId := "a",
    isAlive := true, lastPingTime := 0, lastActiveTime := 0, connectedAt := 0 }

/-- Registry holding just `cClosed`. -/
def rClosed : Registry := [cClosed]

/-! ### C1 — store-scoped broadcast delivery -/

/-- C1 (confirmed): `broadcastToStore(storeId, message, excludeSessionId?)`
delivers the message exactly to the registered connections whose `storeId`
equals the given store, whose `sessionId` is not the excluded one, and
whose transport is open; moreover every emitted effect is a send of that
message, so no store-crossing or excluded delivery exists. -/
theorem broadcastToStore_delivers_exactly_matching (r : Registry) (storeId : String)
    (msg : MsgType) (ex : Option String) (hnd : (sessionIds r).Nodup) :
    (∀ sid, Effect.send sid msg ∈ broadcastToStore r storeId msg ex ↔
      ∃ c ∈ r, c.sessionId = sid ∧ c.storeId = some storeId ∧ some sid ≠ ex ∧
        c.ws.readyState = 1) ∧
    (∀ e ∈ broadcastToStore r storeId msg ex, ∃ sid, e = Effect.send sid msg) := by
  constructor
  · intro sid
    rw [mem_broadcastToStore r storeId msg ex _ hnd]
    constructor
    · rintro ⟨c, hcr, he, h1, h2, h3⟩
      have hs : c.sessionId = sid := by
        simp only [Effect.send.injEq] at he
        exact he.1.symm
      subst hs
      exact ⟨c, hcr, rfl, h1, h2, h3⟩
    · rintro ⟨c, hcr, hs, h1, h2, h3⟩
      subst hs
      exact ⟨c, hcr, rfl, h1, h2, h3⟩
  · exact fun e he => broadcastToStore_effects_are_sends r storeId msg ex e he

/-- Witness for C1 on the concrete four-client registry, with sender b
excluded. -/
theorem broadcastToStore_delivers_exactly_matching_witness :
    (∀ sid, Effect.send sid MsgType.user_joined ∈
        broadcastToStore rFour "s1" MsgType.user_joined (some "b") ↔
      ∃ c ∈ rFour, c.sessionId = sid ∧ c.storeId = some "s1" ∧ some sid ≠ some "b" ∧
        c.ws.readyState = 1) ∧
    (∀ e ∈ broadcastToStore rFour "s1" MsgType.user_joined (some "b"),
      ∃ sid, e = Effect.send sid MsgType.user_joined) :=
  broadcastToStore_delivers_exactly_matching rFour "s1" MsgType.user_joined (some "b")
    (by decide)

/-! ### C3 — removal does not close the transport -/

/-- C3 (counterexample): removing the only connection deletes it from the
registry but emits no transport-close effect, refuting the claim that
removal closes the transport handle as part of the removal. -/
theorem removal_emits_no_close_concrete :
    getClient (handleDisconnection rOne "a").1 "a" = none ∧
    (handleDisconnection rOne "a").2.countP Effect.isClose = 0 := by
  decide

/-- C3 (amended): removal from the registry — the path shared by
transport-close, liveness eviction and send failure — deletes the entry
without closing the transport handle, and is idempotent; the only method
that closes transports is `cleanup`, which closes each registered
transport once and empties the registry. -/
theorem removal_deletes_without_closing (r : Registry) (sid : String) :
    (handleDisconnection r sid).1 = deleteClient r sid ∧
    getClient (handleDisconnection r sid).1 sid = none ∧
    (∀ e ∈ (handleDisconnection r sid).2, e.isClose = false) ∧
    (handleDisconnection (handleDisconnection r sid).1 sid).1 = (handleDisconnection r sid).1 ∧
    (cleanup r).2 = r.map (fun c => Effect.closeWS c.ws.id) ∧ (cleanup r).1 = [] := by
  refine ⟨rfl, getClient_deleteClient_self r sid, ?_, ?_, rfl, rfl⟩
  · exact fun e he => handleDisconnection_no_close r sid e he
  · show deleteClient (deleteClient r sid) sid = deleteClient r sid
    exact deleteClient_absent (deleteClient r sid) sid (getClient_deleteClient_self r sid)

/-- Witness for C3's amended statement on the one-client registry. -/
theorem removal_deletes_without_closing_witness :
    (handleDisconnection rOne "a").1 = deleteClient rOne "a" ∧
    getClient (handleDisconnection rOne "a").1 "a" = none ∧
    (∀ e ∈ (handleDisconnection rOne "a").2, e.isClose = false) ∧
    (handleDisconnection (handleDisconnection rOne "a").1 "a").1 =
      (handleDisconnection rOne "a").1 ∧
    (cleanup rOne).2 = rOne.map (fun c => Effect.closeWS c.ws.id) ∧ (cleanup rOne).1 = [] :=
  removal_deletes_without_closing rOne "a"

/-! ### C4 — send on a non-open transport -/

/-- C4 (counterexample): a send to a registered connection whose transport
is not open does nothing at all — in particular the connection is NOT
evicted — refuting the claim that a non-open transport is treated as a
failed send that evicts. -/
theorem send_on_closed_does_not_evict :
    sendToClient rClosed "a" MsgType.pong false = (rClosed, []) ∧
    getClient (sendToClient rClosed "a" MsgType.pong false).1 "a" ≠ none := by
  decide

/-- C4 (amended): when the registered connection's transport is not open,
`sendToClient` silently skips the send — the registry is unchanged, no
effect is produced, and no exception propagates; when the transport is
open and the underlying send throws, the connection is evicted. -/
theorem sendToClient_skips_closed_evicts_on_throw (r : Registry) (sid : String)
    (msg : MsgType) (b : Bool) (c : ClientConnection) (hc : getClient r sid = some c) :
    (c.ws.readyState ≠ 1 → sendToClient r sid msg b = (r, [])) ∧
    (c.ws.readyState = 1 → getClient (sendToClient r sid msg true).1 sid = none) := by
  constructor
  · intro h
    have hb : (c.ws.readyState == 1) = false := by simpa using h
    simp only [sendToClient, hc, hb, Bool.false_eq_true, if_false]
  · intro h
    have hb : (c.ws.readyState == 1) = true := by simpa using h
    simp only [sendToClient, hc, hb, if_true, handleDisconnection]
    exact getClient_deleteClient_self r sid

/-- Witness for C4's amended statement on the closed-transport client. -/
theorem sendToClient_skips_closed_evicts_on_throw_witness :
    (cClosed.ws.readyState ≠ 1 → sendToClient rClosed "a" MsgType.pong false = (rClosed, [])) ∧
    (cClosed.ws.readyState = 1 →
      getClient (sendToClient rClosed "a" MsgType.pong true).1 "a" = none) :=
  sendToClient_skips_closed_evicts_on_throw rClosed "a" MsgType.pong false cClosed (by decide)

/-! ### C8 — malformed frames are dropped -/

/-- C8 (confirmed): a non-parseable inbound frame is dropped with no
change at all: the registry (hence the sender's connection and every one
of its fields) is unchanged and no effect is produced, for every registry
and transport. -/
theorem malformed_frame_dropped (r : Registry) (w : WS) (now : Nat) :
    handleWebSocketMessage r w Frame.malformed now = (r, []) := by
  simp only [handleWebSocketMessage]
  cases findSessionIdByWebSocket r w <;> rfl

/-! ### C9 — statistics on the empty registry, purity -/

/-- C9 (confirmed): `getStats()` on the empty registry returns zero totals,
an empty per-store map and average connection time 0 (the average is
guarded, not a division by zero), and on every registry the read leaves
the registry unchanged. -/
theorem getStats_empty_zero_and_pure (now : Nat) :
    (getStats ([] : Registry) now).1 =
      { totalConnections := 0, activeConnections := 0, storeConnections := [],
        averageConnectionTime := 0 } ∧
    ∀ r : Registry, (getStats r now).2 = r := by
  exact ⟨rfl, fun r => rfl⟩

/-! ### C5 — authenticate and the both-or-neither invariant -/

/-- The transport of the C5 scenario connection. -/
def wsAuth : WS := ⟨7, 1⟩

/-- Registry state reached by opening a single connection. -/
def rAfterOpen : Registry := (handleWebSocketUpgrade [] wsAuth "a" 0).1

/-- Registry state after that connection sends an authenticate frame
carrying only a `userId` and no `storeId`. -/
def rAfterHalfAuth : Registry :=
  (handleWebSocketMessage rAfterOpen wsAuth (Frame.parsed "authenticate" (some "u1") none) 1).1

/-- C5 (counterexample): an authenticate frame carrying only a `userId`
produces a reachable connection with `userId` present and `storeId`
absent, refuting the both-absent-or-both-present invariant. -/
theorem auth_with_only_userId_breaks_invariant :
    (getClient rAfterHalfAuth "a").map (fun c => (c.userId, c.storeId)) =
      some (some "u1", none) := by
  decide

/-- C5 (amended): processing an authenticate message overwrites the
connection's `userId` and `storeId` in one step with exactly the values
carried in the frame's data, each of which may independently be absent;
both fields end up present only when the frame supplies both. -/
theorem authenticate_sets_exact_data_fields (r : Registry) (sid : String)
    (u s : Option String) (c : ClientConnection) (hc : getClient r sid = some c) :
    getClient (authenticateClient r sid u s).1 sid =
      some { c with userId := u, storeId := s } := by
  simp only [authenticateClient, hc]
  cases s with
  | none =>
    exact getClient_updateClient_self r sid c _ (fun d => rfl) hc
  | some storeId =>
    exact getClient_updateClient_self r sid c _ (fun d => rfl) hc

/-- Witness for C5's amended statement: a full authenticate on the freshly
opened connection sets both fields. -/
theorem authenticate_sets_exact_data_fields_witness :
    getClient (authenticateClient rAfterOpen "a" (some "u1") (some "s1")).1 "a" =
      some { mkConnection wsAuth "a" 0 with userId := some "u1", storeId := some "s1" } :=
  authenticate_sets_exact_data_fields rAfterOpen "a" (some "u1") (some "s1")
    (mkConnection wsAuth "a" 0) (by decide)

/-! ### C7 — pong and client-ping frames -/

/-- A registered connection whose transport is no longer open
(readyState 3). -/
def cStale : ClientConnection :=
  { ws := ⟨8, 3⟩, userId := none, storeId := none, sessionId := "a",
    isAlive := false, lastPingTime := 0, lastActiveTime := 0, connectedAt := 0 }

/-- Registry holding just `cStale`. -/
def rStale : Registry := [cStale]

/-- C7 (counterexample): a registered connection whose transport is not
open that delivers a client-initiated ping frame is marked alive but
receives no pong reply at all — the reply is skipped by the send guard —
refuting "sends exactly one pong reply to that connection". -/
theorem ping_reply_skipped_on_non_open_transport :
    ((handleWebSocketMessage rStale cStale.ws (Frame.parsed "ping" none none) 5).2.countP
      (fun e => e == Effect.send "a" MsgType.pong)) = 0 ∧
    (getClient (handleWebSocketMessage rStale cStale.ws
        (Frame.parsed "ping" none none) 5).1 "a").map (fun c => c.isAlive) = some true := by
  decide

/-- C7 (amended): for a registered connection, a pong frame sets
`isAlive := true`, refreshes `lastPingTime` and `lastActiveTime`, invokes
the external update-last-active hook iff `userId` is present, and sends no
reply; a client-initiated ping frame does the same and additionally sends
exactly one pong reply when — and only when — its transport is in the open
state. -/
theorem pong_and_ping_frames_mark_alive (r : Registry) (c : ClientConnection) (now : Nat)
    (du ds : Option String)
    (hsid : (sessionIds r).Nodup) (hws : (wsIds r).Nodup) (hc : c ∈ r) :
    handleWebSocketMessage r c.ws (Frame.parsed "pong" du ds) now =
      (updateClient r c.sessionId
        (fun d => { d with lastActiveTime := now, isAlive := true, lastPingTime := now }),
       hookEffects c.userId) ∧
    handleWebSocketMessage r c.ws (Frame.parsed "ping" du ds) now =
      (updateClient r c.sessionId
        (fun d => { d with lastActiveTime := now, isAlive := true, lastPingTime := now }),
       (if c.ws.readyState == 1 then [Effect.send c.sessionId MsgType.pong] else []) ++
         hookEffects c.userId) := by
  have hfind := findSessionIdByWebSocket_of_mem r c hws hc
  have hget := getClient_of_mem r c hsid hc
  have hup1 : getClient (updateClient r c.sessionId
      (fun d => { d with lastActiveTime := now })) c.sessionId =
      some { c with lastActiveTime := now } :=
    getClient_updateClient_self r c.sessionId c _ (fun d => rfl) hget
  have hup2 : getClient (updateClient (updateClient r c.sessionId
        (fun d => { d with lastActiveTime := now })) c.sessionId
        (fun d => { d with isAlive := true, lastPingTime := now })) c.sessionId =
      some { c with lastActiveTime := now, isAlive := true, lastPingTime := now } :=
    getClient_updateClient_self _ c.sessionId { c with lastActiveTime := now } _
      (fun d => rfl) hup1
  have hcomp := updateClient_updateClient r c.sessionId
    (fun d => { d with lastActiveTime := now })
    (fun d => { d with isAlive := true, lastPingTime := now }) (fun d => rfl)
  constructor
  · simp only [handleWebSocketMessage, hfind, hget]
    rw [if_neg (by decide), if_pos (by decide), hcomp]
  · simp only [handleWebSocketMessage, hfind, hget]
    rw [if_neg (by decide), if_neg (by decide), if_pos (by decide)]
    simp only [sendToClientOk, hup2]
    rw [hcomp]

/-- Witness for C7's amended statement on the one-client open-transport
registry. -/
theorem pong_and_ping_frames_mark_alive_witness :
    handleWebSocketMessage rOne cOpen.ws (Frame.parsed "pong" none none) 9 =
      (updateClient rOne cOpen.sessionId
        (fun d => { d with lastActiveTime := 9, isAlive := true, lastPingTime := 9 }),
       hookEffects cOpen.userId) ∧
    handleWebSocketMessage rOne cOpen.ws (Frame.parsed "ping" none none) 9 =
      (updateClient rOne cOpen.sessionId
        (fun d => { d with lastActiveTime := 9, isAlive := true, lastPingTime := 9 }),
       (if cOpen.ws.readyState == 1 then [Effect.send cOpen.sessionId MsgType.pong] else []) ++
         hookEffects cOpen.userId) :=
  pong_and_ping_frames_mark_alive rOne cOpen 9 none none (by decide) (by decide) (by decide)

/-! ### C10 — unknown frame kinds only refresh lastActiveTime -/

/-- C10 (confirmed): a parseable frame whose type is none of authenticate,
ping and pong only refreshes the sender's `lastActiveTime`: the sender
stays registered with every other field unchanged, no other connection
changes, and no effect (send or hook) is produced. -/
theorem unknown_frame_only_refreshes_lastActive (r : Registry) (c : ClientConnection)
    (now : Nat) (kind : String) (du ds : Option String)
    (hsid : (sessionIds r).Nodup) (hws : (wsIds r).Nodup) (hc : c ∈ r)
    (h1 : kind ≠ "authenticate") (h2 : kind ≠ "ping") (h3 : kind ≠ "pong") :
    handleWebSocketMessage r c.ws (Frame.parsed kind du ds) now =
      (updateClient r c.sessionId (fun d => { d with lastActiveTime := now }), []) ∧
    getClient (handleWebSocketMessage r c.ws (Frame.parsed kind du ds) now).1 c.sessionId =
      some { c with lastActiveTime := now } ∧
    ∀ sid, sid ≠ c.sessionId →
      getClient (handleWebSocketMessage r c.ws (Frame.parsed kind du ds) now).1 sid =
        getClient r sid := by
  have hfind := findSessionIdByWebSocket_of_mem r c hws hc
  have hget := getClient_of_mem r c hsid hc
  have hb1 : (kind == "authenticate") = false := by simpa using h1
  have hb2 : (kind == "ping") = false := by simpa using h2
  have hb3 : (kind == "pong") = false := by simpa using h3
  have hmain : handleWebSocketMessage r c.ws (Frame.parsed kind du ds) now =
      (updateClient r c.sessionId (fun d => { d with lastActiveTime := now }), []) := by
    simp only [handleWebSocketMessage, hfind, hget, hb1, hb2, hb3, Bool.false_eq_true,
      if_false]
  refine ⟨hmain, ?_, ?_⟩
  · rw [hmain]
    exact getClient_updateClient_self r c.sessionId c _ (fun d => rfl) hget
  · intro sid hs
    rw [hmain]
    exact getClient_updateClient_ne r c.sessionId sid _ (fun d => rfl) hs

/-- Witness for C10: an `order_created` frame on the one-client registry. -/
theorem unknown_frame_only_refreshes_lastActive_witness :
    handleWebSocketMessage rOne cOpen.ws (Frame.parsed "order_created" none none) 9 =
      (updateClient rOne cOpen.sessionId (fun d => { d with lastActiveTime := 9 }), []) ∧
    getClient (handleWebSocketMessage rOne cOpen.ws
        (Frame.parsed "order_created" none none) 9).1 cOpen.sessionId =
      some { cOpen with lastActiveTime := 9 } ∧
    ∀ sid, sid ≠ cOpen.sessionId →
      getClient (handleWebSocketMessage rOne cOpen.ws
          (Frame.parsed "order_created" none none) 9).1 sid =
        getClient rOne sid :=
  unknown_frame_only_refreshes_lastActive rOne cOpen 9 "order_created" none none
    (by decide) (by decide) (by decide) (by decide) (by decide) (by decide)

/-! ### C2 — eviction on exactly the next liveness tick -/

/-- C2 (confirmed): a registered connection that is alive at a liveness
tick is pinged (its `isAlive` flips to false) but kept in the registry at
that tick, and — with no pong or client ping processed in between — it is
removed at exactly the following tick; so it is not evicted at the tick
that pinged it and does not survive to a second tick after the unanswered
ping. -/
theorem unanswered_ping_evicts_on_next_tick (r : Registry) (c : ClientConnection)
    (hnd : (sessionIds r).Nodup) (hc : getClient r c.sessionId = some c)
    (ha : c.isAlive = true) :
    getClient (livenessTick r).1 c.sessionId = some { c with isAlive := false } ∧
    getClient (livenessTick (livenessTick r).1).1 c.sessionId = none := by
  have hmem : c.sessionId ∈ sessionIds r := sessionId_mem_of_getClient r _ c hc
  have h1 : getClient (livenessTick r).1 c.sessionId = some { c with isAlive := false } := by
    have h := tickLoop_fst_getClient (sessionIds r) r c.sessionId c hnd hmem hc
    simpa [livenessTick, ha] using h
  refine ⟨h1, ?_⟩
  have hnd1 : (sessionIds (livenessTick r).1).Nodup :=
    (sessionIds_tickLoop_sublist (sessionIds r) r).nodup hnd
  have hmem1 : c.sessionId ∈ sessionIds (livenessTick r).1 :=
    sessionId_mem_of_getClient _ _ _ h1
  have h2 := tickLoop_fst_getClient (sessionIds (livenessTick r).1) (livenessTick r).1
    c.sessionId { c with isAlive := false } hnd1 hmem1 h1
  simpa [livenessTick] using h2

/-- Witness for C2 on the one-client registry with an alive client. -/
theorem unanswered_ping_evicts_on_next_tick_witness :
    getClient (livenessTick rOne).1 cOpen.sessionId = some { cOpen with isAlive := false } ∧
    getClient (livenessTick (livenessTick rOne).1).1 cOpen.sessionId = none :=
  unanswered_ping_evicts_on_next_tick rOne cOpen (by decide) (by decide) (by decide)

/-! ### C6 — registry uniqueness and reverse lookup -/

/-- The uniqueness invariant of the registry: no two entries share a
`sessionId` and no two entries share a transport handle. -/
def RegistryInv (r : Registry) : Prop :=
  (sessionIds r).Nodup ∧ (wsIds r).Nodup

/-- One connection-open or removal operation on the registry.  An open
carries the freshness facts the source relies on: the generated session id
is new (the generation strategy's uniqueness guarantee) and the transport
handle of a newly opened socket is a new object. -/
inductive RegOp : Registry → Registry → Prop
  | openConn (r : Registry) (w : WS) (sid : String) (now : Nat)
      (hsid : sid ∉ sessionIds r) (hws : w.id ∉ wsIds r) :
      RegOp r (handleWebSocketUpgrade r w sid now).1
  | removeConn (r : Registry) (sid : String) :
      RegOp r (handleDisconnection r sid).1

/-- Registry states reachable from the empty registry by open/remove
sequences. -/
def ReachableReg (r : Registry) : Prop :=
  Relation.ReflTransGen RegOp [] r

theorem regOp_preserves_inv (r r' : Registry) (h : RegOp r r') (hi : RegistryInv r) :
    RegistryInv r' := by
  cases h with
  | openConn w sid now hsid hws =>
    obtain ⟨h1, h2⟩ := hi
    constructor
    · simp only [handleWebSocketUpgrade, sessionIds_append]
      rw [List.nodup_append]
      refine ⟨h1, by simp [sessionIds, mkConnection], ?_⟩
      intro x hx hx2
      simp only [sessionIds, mkConnection, List.map_cons, List.map_nil,
        List.mem_singleton] at hx2
      exact hsid (hx2 ▸ hx)
    · simp only [handleWebSocketUpgrade, wsIds_append]
      rw [List.nodup_append]
      refine ⟨h2, by simp [wsIds, mkConnection], ?_⟩
      intro x hx hx2
      simp only [wsIds, mkConnection, List.map_cons, List.map_nil,
        List.mem_singleton] at hx2
      exact hws (hx2 ▸ hx)
  | removeConn sid =>
    exact ⟨(sessionIds_deleteClient_sublist r sid).nodup hi.1,
      (wsIds_deleteClient_sublist r sid).nodup hi.2⟩

/-- C6 (confirmed): along every sequence of connection-opens (with the
fresh session id and fresh transport object the source relies on) and
removals from the empty registry, the registry never holds two entries
with the same `sessionId` nor two entries owning the same transport
handle, and reverse lookup on a registered connection's transport resolves
to exactly that connection's session id. -/
theorem registry_unique_and_reverse_lookup (r : Registry) (h : ReachableReg r) :
    RegistryInv r ∧ ∀ c ∈ r, findSessionIdByWebSocket r c.ws = some c.sessionId := by
  have hi : RegistryInv r := by
    induction h with
    | refl => exact ⟨List.nodup_nil, List.nodup_nil⟩
    | tail hab hbc ih => exact regOp_preserves_inv _ _ hbc ih
  exact ⟨hi, fun c hc => findSessionIdByWebSocket_of_mem r c hi.2 hc⟩

/-- The registry after one open operation from empty, for the C6 witness. -/
def rAfterOneOpen : Registry := (handleWebSocketUpgrade [] ⟨9, 1⟩ "a" 0).1

/-- Witness for C6 after a single open from the empty registry. -/
theorem registry_unique_and_reverse_lookup_witness :
    RegistryInv rAfterOneOpen ∧
    ∀ c ∈ rAfterOneOpen, findSessionIdByWebSocket rAfterOneOpen c.ws = some c.sessionId :=
  registry_unique_and_reverse_lookup rAfterOneOpen
    (Relation.ReflTransGen.single (RegOp.openConn [] ⟨9, 1⟩ "a" 0 (by decide) (by decide)))
